import Mathlib

/-!
Verification of `deploy_library.py` (Github_Sync_NoAdmin).

The Python module is a one-shot deployment pipeline:
download → extract → locate root → guess package name → create venv →
install → demonstrate → cleanup.  This file gives a shallow embedding of
the functions of the module and proves the claims of the spec about them.

External effects (the environment variable, the HTTP client, the
filesystem, subprocesses) are modelled as explicit inputs: an
`Option`/`Except` value stands for a call that may raise, a `Bool` flag
for a call that may fail, and a function `String → Bool` for the set of
paths existing on disk.

Python string primitives (`strip`, `rstrip`, `removesuffix`,
`endswith`, `split`) are embedded as structural recursions over
`List Char` so that every definition evaluates inside the kernel.
-/

namespace DeployLibrary

/-- Constant `DEFAULT_BRANCH` from the source (line 15). -/
def DEFAULT_BRANCH : String := "main"

/-- Constant `REPO_URL_ENV_VAR` from the source (line 14). -/
def REPO_URL_ENV_VAR : String := "PYTHON_LIB_GITHUB_URL"

/-- Python `str.endswith`: does `s` end with `suf`? -/
def endswith (s suf : String) : Bool :=
  suf.data.isSuffixOf s.data

/-- Python `str.removesuffix`: drop `suf` from the end of `s` when it
is there, otherwise return `s` unchanged. -/
def removesuffix (s suf : String) : String :=
  if endswith s suf then String.mk (s.data.take (s.data.length - suf.data.length))
  else s

/-- Python `str.rstrip("/")`: drop every trailing `/` character. -/
def rstripSlashes (s : String) : String :=
  String.mk ((s.data.reverse.dropWhile (fun c => c = '/')).reverse)

/-- Drop leading whitespace characters from a character list. -/
def lstripWs : List Char → List Char
  | [] => []
  | c :: r => if c.isWhitespace then lstripWs r else c :: r

/-- Python `str.strip()` with no argument: remove whitespace from both
ends. -/
def pystrip (s : String) : String :=
  String.mk ((lstripWs (lstripWs s.data).reverse).reverse)

/-- Embedding of `get_repo_url_from_env` (source lines 32-38).  The input
models `os.environ.get(REPO_URL_ENV_VAR)`: `none` when the variable is
unset.  The Python check `if not repo_url` treats both `None` and the empty
string as falsy; only afterwards is `.strip()` applied. -/
def get_repo_url_from_env (env : Option String) : Option String :=
  match env with
  | none => none
  | some s => if s = "" then none else some (pystrip s)

/-- Split a character list on a separator character; the pieces keep
their order and the separators are dropped (Python `str.split(c)`). -/
def splitOnChar (c : Char) : List Char → List (List Char)
  | [] => [[]]
  | x :: xs =>
    match splitOnChar c xs with
    | [] => [[]]
    | h :: t => if x = c then [] :: h :: t else (x :: h) :: t

/-- Everything after the first occurrence of `://`, when there is one. -/
def afterSchemeSep : List Char → Option (List Char)
  | ':' :: '/' :: '/' :: rest => some rest
  | _ :: rest => afterSchemeSep rest
  | [] => none

/-- Drop the authority (netloc) part: everything up to the first `/`. -/
def dropNetloc : List Char → List Char
  | [] => []
  | c :: rest => if c = '/' then c :: rest else dropNetloc rest

/-- Cut a character list at the first character satisfying `p`. -/
def takeUntil (p : Char → Bool) : List Char → List Char
  | [] => []
  | c :: r => if p c then [] else c :: takeUntil p r

/-- Model of `urllib.parse.urlparse(url).path` for the URL shapes this
program receives: an optional `scheme://netloc` part followed by the
path, with the `?query` / `#fragment` tail cut off.  When the URL has no
`://` separator the whole remaining string is the path, as `urlparse`
behaves for scheme-less inputs. -/
def urlparse_path (url : String) : List Char :=
  let cut := takeUntil (fun c => c = '?' ∨ c = '#') url.data
  match afterSchemeSep cut with
  | none => cut
  | some rest => dropNetloc rest

/-- The non-empty `/`-separated segments of the URL path: the list
`[p for p in urlparse(repo_url).path.split("/") if p]` from source
line 20. -/
def pathSegments (url : String) : List String :=
  ((splitOnChar '/' (urlparse_path url)).map String.mk).filter (fun p => p ≠ "")

/-- The segment-level body of `get_repo_name_from_url` (source lines
21-27).  The Python call `path_parts.index("archive")` is guarded by
`"archive" in path_parts`; when the segment before `archive` would have
index `-1` (`idx >= 0` fails) the code falls through to the
last-segment rule. -/
def repoNameOfSegs (path_parts : List String) : Option String :=
  if path_parts.isEmpty then none
  else
    let idx := path_parts.indexOf "archive"
    if path_parts.elem "archive" ∧ 1 ≤ idx then
      some (path_parts.getD (idx - 1) "")
    else
      some (removesuffix (path_parts.getLastD "") ".zip")

/-- Embedding of `get_repo_name_from_url` (source lines 17-30): split the
URL path into non-empty segments and apply the segment rules. -/
def get_repo_name_from_url (repo_url : String) : Option String :=
  repoNameOfSegs (pathSegments repo_url)

/-- The URL-derivation step inlined in `download_repo_zip` (source lines
43-47): a URL already ending in `.zip` is used verbatim, otherwise the
trailing slashes are stripped and the branch-archive suffix is appended
with the fixed `DEFAULT_BRANCH`. -/
def deriveArchiveUrl (repo_url : String) : String :=
  if endswith repo_url ".zip" then repo_url
  else rstripSlashes repo_url ++ "/archive/refs/heads/" ++ DEFAULT_BRANCH ++ ".zip"

/-- A response returned by `requests.get` with `stream=True`: its status
code and the byte chunks yielded by `iter_content`.  Bytes are `Nat`s. -/
structure HttpResponse where
  status : Nat
  chunks : List (List Nat)
deriving DecidableEq, Repr

/-- The external collaborators used by `download_repo_zip`: the HTTP
client (`requests.get`, taking the URL and the timeout, raising on a
network error) and whether opening/writing the destination file
succeeds. -/
structure FetchWorld where
  get : String → Nat → Except String HttpResponse
  writeOk : Bool

/-- `response.raise_for_status()` of the `requests` library: it raises
`HTTPError` exactly for 4xx and 5xx status codes. -/
def raise_for_status (r : HttpResponse) : Except String HttpResponse :=
  if 400 ≤ r.status ∧ r.status < 600 then Except.error "HTTPError" else Except.ok r

/-- Embedding of `download_repo_zip` (source lines 40-59).  The result
pairs the returned path `temp_dir_path/repo.zip` with the bytes written
to it (the chunks, skipping falsy — empty — ones, per `if chunk:`).
Any exception (network error, `raise_for_status`, file write) is caught
and yields `none`. -/
def download_repo_zip (w : FetchWorld) (repo_url temp_dir_path : String) :
    Option (String × List Nat) :=
  let zip_url := deriveArchiveUrl repo_url
  match w.get zip_url 30 with
  | Except.error _ => none
  | Except.ok response =>
    match raise_for_status response with
    | Except.error _ => none
    | Except.ok _ =>
      if w.writeOk then
        some (temp_dir_path ++ "/repo.zip",
          (response.chunks.filter (fun c => !c.isEmpty)).flatten)
      else none

/-- An immediate entry of a directory as `Path.iterdir` sees it: its
name and whether it is a directory. -/
structure Entry where
  name : String
  isDir : Bool
deriving DecidableEq, Repr

/-- Embedding of `find_library_root` (source lines 72-83).  The input
models `Path(extract_to_dir_path).iterdir()`: `none` when listing the
directory raises (caught, logged, `None` returned). -/
def find_library_root (listing : Option (List Entry)) : Option Entry :=
  match listing with
  | none => none
  | some entries =>
    let dirs := entries.filter (fun p => p.isDir)
    if dirs.length ≠ 1 then none else dirs.head?

/-- An immediate child of the library root: its name and whether
`child / "__init__.py"` is an existing file. -/
structure DirChild where
  name : String
  hasInitFile : Bool
deriving DecidableEq, Repr

/-- The library root directory as `guess_package_name` sees it: its own
name and its children; `children = none` models `iterdir` (or the
marker-file check) raising, which the function catches. -/
structure LibraryRootDir where
  name : String
  children : Option (List DirChild)
deriving DecidableEq, Repr

/-- Embedding of `guess_package_name` (source lines 85-93): the first
child with an `__init__.py` marker wins; otherwise — including when the
listing raises — the name of the root itself is the fallback.  The function
always produces a name. -/
def guess_package_name (root : LibraryRootDir) : String :=
  match root.children with
  | none => root.name
  | some cs =>
    match cs.filter (fun c => c.hasInitFile) with
    | [] => root.name
    | c :: _ => c.name

/-- The external collaborators of `cleanup`: for each path, whether
`shutil.rmtree(path, ignore_errors=True)` raises anyway (caught by the
`except` branch) and whether the removal silently fails (suppressed by
`ignore_errors=True`). -/
structure CleanupWorld where
  raises : String → Bool
  fails : String → Bool

/-- Python `str.startswith`: does `s` start with `pre`? -/
def startswith (s pre : String) : Bool :=
  pre.data.isPrefixOf s.data

/-- Remove a path and everything under it from the filesystem, modelled
as clearing every path that has `p` as a textual path prefix. -/
def removeTree (fs : String → Bool) (p : String) : String → Bool :=
  fun q => if startswith q p then false else fs q

/-- One `shutil.rmtree(path, ignore_errors=True)` call over the
modelled filesystem `fs` (the set of existing paths): it can raise, do
nothing (errors suppressed), or remove the tree.  Removing a path that
does not exist is a no-op rather than an error. -/
def shutil_rmtree (w : CleanupWorld) (fs : String → Bool) (p : String) :
    Except String (String → Bool) :=
  if w.raises p then Except.error "OSError"
  else if w.fails p then Except.ok fs
  else Except.ok (removeTree fs p)

/-- Embedding of `cleanup` (source lines 147-154): each path is removed
inside a `try`/`except` that logs and continues, so the function itself
never raises — its result is just the final filesystem. -/
def cleanup (w : CleanupWorld) (paths_to_remove : List String)
    (fs : String → Bool) : String → Bool :=
  match paths_to_remove with
  | [] => fs
  | p :: rest =>
    match shutil_rmtree w fs p with
    | Except.ok fsNext => cleanup w rest fsNext
    | Except.error _ => cleanup w rest fs

/-- The outcome of one `subprocess.run(..., capture_output=True)` call. -/
structure ProcResult where
  returncode : Int
  stdout : String
  stderr : String
deriving DecidableEq, Repr

/-- Embedding of `extract_repo_zip` (source lines 61-70): the flag
models whether `ZipFile(...).extractall` raises; on success the
destination directory itself is returned. -/
def extract_repo_zip (extractRaises : Bool) (extract_to_dir_path : String) :
    Option String :=
  if extractRaises then none else some extract_to_dir_path

/-- Embedding of `create_virtual_env` (source lines 95-106): the input
models the `subprocess.run([sys.executable, "-m", "venv", path], ...)`
call, `Except.error` standing for a raised exception.  A non-zero exit
status or an exception yields `false`. -/
def create_virtual_env (run : Except String ProcResult) : Bool :=
  match run with
  | Except.error _ => false
  | Except.ok result => if result.returncode ≠ 0 then false else true

/-- The installer executable path resolved by `install_library_in_venv`
(source lines 110-112): `Scripts/pip.exe` on Windows, `bin/pip`
elsewhere. -/
def pip_path (isWindows : Bool) (venv_path : String) : String :=
  venv_path ++ "/" ++ (if isWindows then "Scripts" else "bin")
    ++ "/" ++ (if isWindows then "pip.exe" else "pip")

/-- Embedding of `install_library_in_venv` (source lines 108-122): the
input models the `subprocess.run([pip_path, "install", source], ...)`
call.  A non-zero exit status or an exception yields `false`. -/
def install_library_in_venv (run : Except String ProcResult) : Bool :=
  match run with
  | Except.error _ => false
  | Except.ok result => if result.returncode ≠ 0 then false else true

/-- The external effects of `run_demonstration`: whether
`demo_script.write_text` raises, and the result of running the script
with the interpreter of the environment (`Except.error` for a raised
exception). -/
structure DemoWorld where
  writeRaises : Bool
  proc : Except String ProcResult

/-- What is observable after `run_demonstration` returns: whether the
`demo_script.py` file still exists, and whether an exception escaped the
call. -/
structure DemoOutcome where
  scriptExists : Bool
  raised : Bool
deriving DecidableEq, Repr

/-- Embedding of `run_demonstration` (source lines 124-145).  The `try`
body writes the script and runs it; both failure modes land in the
`except` branch, which only logs.  The `finally` branch removes the
script whenever it exists, so no branch leaves it behind and no branch
re-raises. -/
def run_demonstration (w : DemoWorld) : DemoOutcome :=
  let scriptOnDisk : Bool :=
    if w.writeRaises then false
    else
      match w.proc with
      | Except.error _ => true
      | Except.ok _ => true
  { scriptExists := if scriptOnDisk then false else scriptOnDisk
    raised := false }

/-- The pipeline steps of `main`, in source order.  A step is listed
when `main` starts it; `config` is the `get_repo_url_from_env` call. -/
inductive Step where
  | config
  | fetch
  | extract
  | findRoot
  | guessName
  | venv
  | install
  | demo
deriving DecidableEq, Repr

/-- The full pipeline, in execution order. -/
def pipelineSteps : List Step :=
  [Step.config, Step.fetch, Step.extract, Step.findRoot, Step.guessName,
   Step.venv, Step.install, Step.demo]

/-- All external effects one run of `main` can observe. -/
structure MainWorld where
  env : Option String
  mkdtemp : Except String String
  get : String → Nat → Except String HttpResponse
  writeOk : Bool
  extractRaises : Bool
  extractListing : Option (List Entry)
  rootChildren : Option (List DirChild)
  venvProc : Except String ProcResult
  pipProc : Except String ProcResult
  demo : DemoWorld

/-- What one run of `main` did: the steps it started in order, whether
the final success message was logged, and whether/with which paths
`cleanup` ran. -/
structure RunTrace where
  steps : List Step
  success : Bool
  cleanupRun : Bool
  cleanupPaths : List String
deriving Repr

/-- The `try` body of `main` (source lines 161-194): each failed step
returns immediately with the steps run so far.  `mkdtemp` raising is
the representative unexpected exception caught by the catch-all; it
happens before `paths_to_clean.append`, so cleanup then gets the empty
list. -/
def mainBody (w : MainWorld) : List Step × Bool × List String :=
  match get_repo_url_from_env w.env with
  | none => ([Step.config], false, [])
  | some repo_url_str =>
    if repo_url_str = "" then ([Step.config], false, [])
    else
      match w.mkdtemp with
      | Except.error _ => ([Step.config], false, [])
      | Except.ok temp_base_dir =>
        match download_repo_zip { get := w.get, writeOk := w.writeOk } repo_url_str
            (temp_base_dir ++ "/download") with
        | none => ([Step.config, Step.fetch], false, [temp_base_dir])
        | some _ =>
          match extract_repo_zip w.extractRaises (temp_base_dir ++ "/extracted") with
          | none => ([Step.config, Step.fetch, Step.extract], false, [temp_base_dir])
          | some _ =>
            match find_library_root w.extractListing with
            | none =>
              ([Step.config, Step.fetch, Step.extract, Step.findRoot], false,
                [temp_base_dir])
            | some library_root_path =>
              if guess_package_name
                  { name := library_root_path.name, children := w.rootChildren } = "" then
                ([Step.config, Step.fetch, Step.extract, Step.findRoot, Step.guessName],
                  false, [temp_base_dir])
              else if create_virtual_env w.venvProc then
                if install_library_in_venv w.pipProc then
                  let _ := run_demonstration w.demo
                  (pipelineSteps, true, [temp_base_dir])
                else
                  ([Step.config, Step.fetch, Step.extract, Step.findRoot, Step.guessName,
                    Step.venv, Step.install], false, [temp_base_dir])
              else
                ([Step.config, Step.fetch, Step.extract, Step.findRoot, Step.guessName,
                  Step.venv], false, [temp_base_dir])

/-- Embedding of `main` (source lines 156-198): the `try` body runs, and
the `finally` branch always invokes `cleanup` on `paths_to_clean`. -/
def main (w : MainWorld) : RunTrace :=
  { steps := (mainBody w).1
    success := (mainBody w).2.1
    cleanupRun := true
    cleanupPaths := (mainBody w).2.2 }

end DeployLibrary

namespace DeployLibrary

example : get_repo_name_from_url "https://github.com/user/repo/archive/refs/heads/main.zip" = some "repo" := by decide

example : get_repo_name_from_url "https://github.com/user/repo" = some "repo" := by decide

example : get_repo_url_from_env (some "   ") = some "" := by decide

example : deriveArchiveUrl "https://github.com/u/r/" = "https://github.com/u/r/archive/refs/heads/main.zip" := by decide

example : get_repo_name_from_url "https://host/archive/refs.zip" = some "refs" := by decide

/-- Helper: the segment rules on a list that contains `archive` at a
positive index return the preceding segment. -/
theorem repoNameOfSegs_archive_at (ps : List String) (i : Nat)
    (hidx : ps.indexOf "archive" = i) (h1 : 1 ≤ i) (hlen : i < ps.length) :
    repoNameOfSegs ps = some (ps.getD (i - 1) "") := by
  have hmem : "archive" ∈ ps := List.indexOf_lt_length.1 (hidx ▸ hlen)
  have helem : ps.elem "archive" = true := List.elem_iff.2 hmem
  cases ps with
  | nil => simp at hmem
  | cons a t =>
    rw [repoNameOfSegs]
    rw [if_neg (by simp), if_pos ⟨helem, hidx ▸ h1⟩, hidx]

/-- Helper: the segment rules on a non-empty list without `archive`
return the last segment with a trailing `.zip` removed. -/
theorem repoNameOfSegs_no_archive (ps : List String)
    (hna : "archive" ∉ ps) (hne : ps ≠ []) :
    repoNameOfSegs ps = some (removesuffix (ps.getLastD "") ".zip") := by
  have helem : ps.elem "archive" = false := by
    rcases h : ps.elem "archive" with _ | _
    · rfl
    · exact absurd (List.elem_iff.1 h) hna
  cases ps with
  | nil => exact absurd rfl hne
  | cons a t =>
    rw [repoNameOfSegs]
    rw [if_neg (by simp),
      if_neg (by intro hc; rw [helem] at hc; exact absurd hc.1 (by decide))]

/-- Claim C2: `deriveArchiveUrl` returns a URL ending in `.zip`
verbatim; any other URL gets its trailing slashes stripped and the
`/archive/refs/heads/<branch>.zip` suffix appended, where the branch is
the `DEFAULT_BRANCH` constant `"main"` (the code offers no override, so
the default always applies). -/
theorem download_url_derivation_cases (url : String) :
    (endswith url ".zip" = true → deriveArchiveUrl url = url)
    ∧ (endswith url ".zip" = false →
        deriveArchiveUrl url =
          rstripSlashes url ++ "/archive/refs/heads/" ++ DEFAULT_BRANCH ++ ".zip")
    ∧ DEFAULT_BRANCH = "main" := by
  refine ⟨fun h => by simp [deriveArchiveUrl, h], fun h => by simp [deriveArchiveUrl, h], rfl⟩

/-- Witness for C2 at two concrete URLs, one per case. -/
theorem download_url_derivation_examples :
    deriveArchiveUrl "https://example.com/repo.zip" = "https://example.com/repo.zip"
    ∧ deriveArchiveUrl "https://github.com/u/r/" =
        "https://github.com/u/r/archive/refs/heads/main.zip" := by
  constructor
  · exact (download_url_derivation_cases "https://example.com/repo.zip").1 (by decide)
  · have h := (download_url_derivation_cases "https://github.com/u/r/").2.1 (by decide)
    rw [h]; decide

/-- Claim C3: `get_repo_name_from_url` parses the URL path into
non-empty segments; with no segments it returns `none`; with `archive`
present at a positive index it returns the segment immediately before
it; otherwise it returns the last segment with a trailing `.zip`
removed.  The two concrete examples from the spec are included. -/
theorem repo_name_derivation_cases (url : String) :
    (pathSegments url = [] → get_repo_name_from_url url = none)
    ∧ (∀ i, (pathSegments url).indexOf "archive" = i → 1 ≤ i →
        i < (pathSegments url).length →
        get_repo_name_from_url url = some ((pathSegments url).getD (i - 1) ""))
    ∧ ("archive" ∉ pathSegments url → pathSegments url ≠ [] →
        get_repo_name_from_url url =
          some (removesuffix ((pathSegments url).getLastD "") ".zip"))
    ∧ get_repo_name_from_url "https://host/user/repo/archive/refs/heads/main.zip" = some "repo"
    ∧ get_repo_name_from_url "https://host/user/repo" = some "repo" := by
  refine ⟨?_, ?_, ?_, by decide, by decide⟩
  · intro h
    rw [get_repo_name_from_url, h]
    rfl
  · intro i hidx h1 hlen
    rw [get_repo_name_from_url, repoNameOfSegs_archive_at (pathSegments url) i hidx h1 hlen]
  · intro hna hne
    rw [get_repo_name_from_url, repoNameOfSegs_no_archive (pathSegments url) hna hne]

/-- Witness for C3: the archive rule and the last-segment rule at
concrete URLs. -/
theorem repo_name_derivation_examples :
    get_repo_name_from_url "https://github.com/user/repo/archive/refs/heads/main.zip"
      = some "repo"
    ∧ get_repo_name_from_url "https://github.com/user/repo" = some "repo" := by
  constructor
  · have h := (repo_name_derivation_cases
      "https://github.com/user/repo/archive/refs/heads/main.zip").2.1 2 (by decide) (by decide)
      (by decide)
    rw [h]; decide
  · have h := (repo_name_derivation_cases "https://github.com/user/repo").2.2.1
      (by decide) (by decide)
    rw [h]; decide

/-- Counterexample to C8 as stated: a whitespace-only value is truthy,
so `get_repo_url_from_env` does not return the `MissingConfiguration`
sentinel `None`; it strips the value and returns the empty string. -/
theorem get_repo_url_whitespace_only_not_none :
    get_repo_url_from_env (some "   ") = some ""
    ∧ get_repo_url_from_env (some "   ") ≠ none := by
  decide

/-- Claim C8 (amended): `get_repo_url_from_env` returns `none` exactly
when the variable is unset or set to the raw empty string; any other
value — including a whitespace-only one — is returned with surrounding
whitespace stripped. -/
theorem get_repo_url_from_env_cases (env : Option String) :
    (get_repo_url_from_env env = none ↔ env = none ∨ env = some "")
    ∧ (∀ s, env = some s → s ≠ "" → get_repo_url_from_env env = some (pystrip s)) := by
  constructor
  · cases env with
    | none => simp [get_repo_url_from_env]
    | some s => by_cases h : s = "" <;> simp [get_repo_url_from_env, h]
  · intro s hs hne
    subst hs
    simp [get_repo_url_from_env, hne]

/-- Witness for C8 (amended) at a concrete padded URL. -/
theorem get_repo_url_from_env_examples :
    get_repo_url_from_env (some " https://example.com ") = some "https://example.com" := by
  have h := (get_repo_url_from_env_cases (some " https://example.com ")).2
    " https://example.com " rfl (by decide)
  rw [h]; decide

/-- Claim C10: when `archive` is the first non-empty path segment there
is no preceding segment; the code falls through to the default rule and
returns the last segment with any trailing `.zip` removed (it neither
raises nor returns `None`). -/
theorem repo_name_archive_first_segment_falls_through (url : String)
    (h : (pathSegments url).head? = some "archive") :
    get_repo_name_from_url url =
      some (removesuffix ((pathSegments url).getLastD "") ".zip") := by
  rw [get_repo_name_from_url]
  cases hps : pathSegments url with
  | nil => simp [hps] at h
  | cons a t =>
    rw [hps] at h
    simp only [List.head?_cons, Option.some.injEq] at h
    subst h
    rw [repoNameOfSegs]
    rw [if_neg (by simp), if_neg (by simp [List.indexOf_cons_self])]

/-- Witness for C10 at a URL whose first path segment is `archive`. -/
theorem repo_name_archive_first_segment_example :
    get_repo_name_from_url "https://host/archive/refs.zip" = some "refs" := by
  have h := repo_name_archive_first_segment_falls_through
    "https://host/archive/refs.zip" (by decide)
  rw [h]; decide

/-- Claim C4: `find_library_root` returns the single immediate
subdirectory when exactly one exists, and `none` when the filtered
subdirectory count is zero or at least two. -/
theorem find_library_root_cases (entries : List Entry) :
    (∀ d, entries.filter (fun p => p.isDir) = [d] →
      find_library_root (some entries) = some d)
    ∧ ((entries.filter (fun p => p.isDir)).length ≠ 1 →
      find_library_root (some entries) = none) := by
  constructor
  · intro d hd
    simp [find_library_root, hd]
  · intro h
    simp [find_library_root, h]

/-- Witness for C4: exactly one subdirectory, zero subdirectories, and
two subdirectories. -/
theorem find_library_root_examples :
    find_library_root (some [⟨"repo-main", true⟩, ⟨"README.md", false⟩])
      = some ⟨"repo-main", true⟩
    ∧ find_library_root (some [⟨"README.md", false⟩]) = none
    ∧ find_library_root (some [⟨"a", true⟩, ⟨"b", true⟩]) = none := by
  refine ⟨(find_library_root_cases _).1 _ (by decide),
    (find_library_root_cases _).2 (by decide),
    (find_library_root_cases _).2 (by decide)⟩

/-- Claim C5: `guess_package_name` returns the name of the first child
carrying an `__init__.py` marker; with no qualifying child it returns
the name of the root itself; when the listing raises it also degrades to the
name of the root — it never fails (its type is a plain `String`). -/
theorem guess_package_name_total_with_fallback (root : LibraryRootDir) :
    (∀ cs c rest, root.children = some cs →
        cs.filter (fun x => x.hasInitFile) = c :: rest →
        guess_package_name root = c.name)
    ∧ (∀ cs, root.children = some cs →
        cs.filter (fun x => x.hasInitFile) = [] →
        guess_package_name root = root.name)
    ∧ (root.children = none → guess_package_name root = root.name) := by
  refine ⟨?_, ?_, ?_⟩
  · intro cs c rest hcs hf
    simp [guess_package_name, hcs, hf]
  · intro cs hcs hf
    simp [guess_package_name, hcs, hf]
  · intro h
    simp [guess_package_name, h]

/-- Witness for C5: a qualifying child, no qualifying child, and a
raising listing. -/
theorem guess_package_name_examples :
    guess_package_name ⟨"repo-main", some [⟨"docs", false⟩, ⟨"mypkg", true⟩]⟩ = "mypkg"
    ∧ guess_package_name ⟨"repo-main", some [⟨"docs", false⟩]⟩ = "repo-main"
    ∧ guess_package_name ⟨"repo-main", none⟩ = "repo-main" := by
  refine ⟨(guess_package_name_total_with_fallback _).1 _ ⟨"mypkg", true⟩ [] rfl (by decide),
    (guess_package_name_total_with_fallback _).2.1 _ rfl (by decide),
    (guess_package_name_total_with_fallback _).2.2 rfl⟩

/-- Skipping the falsy (empty) chunks does not change the downloaded
bytes. -/
theorem flatten_filter_ne_nil (l : List (List Nat)) :
    (l.filter (fun c => !c.isEmpty)).flatten = l.flatten := by
  induction l with
  | nil => rfl
  | cons c t ih =>
    cases c with
    | nil => simpa using ih
    | cons b bs => simp [ih]

/-- A fetch world whose server answers status 304 (not a success, not an
error `raise_for_status` reacts to) with body bytes `TE`. -/
def fetch304World : FetchWorld :=
  { get := fun _ _ => Except.ok { status := 304, chunks := [[84, 69]] }, writeOk := true }

/-- Counterexample to C6 as stated: a non-2xx status does not always
yield the null result.  `raise_for_status` only raises for 4xx/5xx, so
a 304 response is written out and the file path is returned. -/
theorem download_repo_zip_not_failing_on_status_304 :
    download_repo_zip fetch304World "https://example.com/repo.zip" "/tmp/download"
      = some ("/tmp/download/repo.zip", [84, 69])
    ∧ download_repo_zip fetch304World "https://example.com/repo.zip" "/tmp/download"
      ≠ none := by
  decide

/-- Claim C6 (amended): `download_repo_zip` performs the GET at timeout
30 on the derived archive URL; a network error, a 4xx/5xx status, or a
filesystem write failure yields `none`; otherwise it returns the path
`temp_dir/repo.zip` together with content byte-for-byte equal to the
response body. -/
theorem download_repo_zip_failure_and_success_cases (w : FetchWorld) (url dir : String) :
    (∀ e, w.get (deriveArchiveUrl url) 30 = Except.error e →
        download_repo_zip w url dir = none)
    ∧ (∀ r, w.get (deriveArchiveUrl url) 30 = Except.ok r →
        400 ≤ r.status → r.status < 600 → download_repo_zip w url dir = none)
    ∧ (w.writeOk = false → download_repo_zip w url dir = none)
    ∧ (∀ r, w.get (deriveArchiveUrl url) 30 = Except.ok r →
        ¬ (400 ≤ r.status ∧ r.status < 600) → w.writeOk = true →
        download_repo_zip w url dir = some (dir ++ "/repo.zip", r.chunks.flatten)) := by
  refine ⟨?_, ?_, ?_, ?_⟩
  · intro e he
    simp [download_repo_zip, he]
  · intro r hr h4 h6
    simp only [download_repo_zip, hr]
    unfold raise_for_status
    rw [if_pos ⟨h4, h6⟩]
  · intro hw
    cases hg : w.get (deriveArchiveUrl url) 30 with
    | error e => simp [download_repo_zip, hg]
    | ok r =>
      simp only [download_repo_zip, hg]
      unfold raise_for_status
      by_cases hs : 400 ≤ r.status ∧ r.status < 600
      · rw [if_pos hs]
      · rw [if_neg hs]
        simp [hw]
  · intro r hr hs hw
    simp only [download_repo_zip, hr]
    unfold raise_for_status
    rw [if_neg hs]
    simp [hw, flatten_filter_ne_nil]

/-- A fetch world whose server answers 404. -/
def fetch404World : FetchWorld :=
  { get := fun _ _ => Except.ok { status := 404, chunks := [] }, writeOk := true }

/-- A fetch world whose server answers 200 with the `TESTDATA` bytes in
two chunks. -/
def fetch200World : FetchWorld :=
  { get := fun _ _ => Except.ok { status := 200, chunks := [[84, 69, 83, 84], [68, 65, 84, 65]] },
    writeOk := true }

/-- Witness for C6 (amended): a 404 fetch fails; a 200 fetch of the
`TESTDATA` bytes returns the path with exactly those bytes. -/
theorem download_repo_zip_cases_examples :
    download_repo_zip fetch404World "https://example.com/repo.zip" "/tmp/download" = none
    ∧ download_repo_zip fetch200World "https://example.com/repo.zip" "/tmp/download"
      = some ("/tmp/download/repo.zip", [84, 69, 83, 84, 68, 65, 84, 65]) := by
  constructor
  · exact (download_repo_zip_failure_and_success_cases fetch404World
      "https://example.com/repo.zip" "/tmp/download").2.1
      ⟨404, []⟩ rfl (by decide) (by decide)
  · have h := (download_repo_zip_failure_and_success_cases fetch200World
      "https://example.com/repo.zip" "/tmp/download").2.2.2
      ⟨200, [[84, 69, 83, 84], [68, 65, 84, 65]]⟩ rfl (by decide) rfl
    exact h.trans (by decide)

/-- Helper for C7: `cleanup` only ever removes paths; it never creates
one. -/
theorem cleanup_only_removes (w : CleanupWorld) :
    ∀ (paths : List String) (fs : String → Bool) (q : String),
      cleanup w paths fs q = true → fs q = true := by
  intro paths
  induction paths with
  | nil => intro fs q h; exact h
  | cons a rest ih =>
    intro fs q h
    rw [cleanup] at h
    unfold shutil_rmtree at h
    by_cases hra : w.raises a
    · rw [if_pos hra] at h
      exact ih fs q h
    · rw [if_neg hra] at h
      by_cases hfa : w.fails a
      · rw [if_pos hfa] at h
        exact ih fs q h
      · rw [if_neg hfa] at h
        have h2 : removeTree fs a q = true := ih (removeTree fs a) q h
        rw [removeTree] at h2
        by_cases hp : startswith q a = true
        · rw [if_pos hp] at h2
          exact absurd h2 (by decide)
        · rw [if_neg hp] at h2
          exact h2

/-- Helper for C7: every listed path whose own removal neither raises
nor fails ends up removed, together with everything under it, no matter
what happens to the other paths. -/
theorem cleanup_clears_listed (w : CleanupWorld) :
    ∀ (paths : List String) (fs : String → Bool) (p : String), p ∈ paths →
      w.raises p = false → w.fails p = false →
      ∀ q, startswith q p = true → cleanup w paths fs q = false := by
  intro paths
  induction paths with
  | nil =>
    intro fs p hp
    simp at hp
  | cons a rest ih =>
    intro fs p hp hr hf q hpre
    rw [cleanup]
    unfold shutil_rmtree
    rcases List.mem_cons.1 hp with rfl | hmem
    · rw [if_neg (by simp [hr]), if_neg (by simp [hf])]
      show cleanup w rest (removeTree fs p) q = false
      cases hres : cleanup w rest (removeTree fs p) q with
      | false => rfl
      | true =>
        have h2 := cleanup_only_removes w rest (removeTree fs p) q hres
        rw [removeTree, if_pos hpre] at h2
        exact absurd h2 (by decide)
    · by_cases hra : w.raises a
      · rw [if_pos hra]
        show cleanup w rest fs q = false
        exact ih fs p hmem hr hf q hpre
      · rw [if_neg hra]
        by_cases hfa : w.fails a
        · rw [if_pos hfa]
          show cleanup w rest fs q = false
          exact ih fs p hmem hr hf q hpre
        · rw [if_neg hfa]
          show cleanup w rest (removeTree fs a) q = false
          exact ih (removeTree fs a) p hmem hr hf q hpre

/-- Claim C7: `cleanup` never raises (its type is a plain filesystem,
mirroring the per-path `try`/`except` plus `ignore_errors=True`); it
never creates paths; and each listed path whose removal does not fail is
removed with its whole subtree even when other removals raise or fail —
removing an already-absent path is a harmless no-op of `removeTree`. -/
theorem cleanup_removes_rest_despite_failures (w : CleanupWorld)
    (paths : List String) (fs : String → Bool) :
    (∀ q, cleanup w paths fs q = true → fs q = true)
    ∧ (∀ p, p ∈ paths → w.raises p = false → w.fails p = false →
        ∀ q, startswith q p = true → cleanup w paths fs q = false) :=
  ⟨fun q => cleanup_only_removes w paths fs q,
   fun p hp hr hf q hpre => cleanup_clears_listed w paths fs p hp hr hf q hpre⟩

/-- A cleanup world where removing `/tmp/a` raises (the `except` branch
logs it) and nothing else fails. -/
def raisingCleanupWorld : CleanupWorld :=
  { raises := fun p => p == "/tmp/a", fails := fun _ => false }

/-- A filesystem with two work-area trees. -/
def twoTreesFs : String → Bool :=
  fun q => q == "/tmp/a" || q == "/tmp/a/x" || q == "/tmp/b" || q == "/tmp/b/y"

/-- Witness for C7: the failed removal of `/tmp/a` does not prevent
`/tmp/b` (here its file `/tmp/b/y`) from being removed. -/
theorem cleanup_second_path_removed_when_first_raises :
    cleanup raisingCleanupWorld ["/tmp/a", "/tmp/b"] twoTreesFs "/tmp/b/y" = false :=
  (cleanup_removes_rest_despite_failures raisingCleanupWorld ["/tmp/a", "/tmp/b"] twoTreesFs).2
    "/tmp/b" (by decide) (by decide) (by decide) "/tmp/b/y" (by decide)

/-- Claim C1: in every run of `main`, cleanup runs; the started steps
are always an order-respecting front of the pipeline (a failing step
skips all later ones); success is logged exactly when every step ran;
and cleanup receives the work-area path whenever it was created and the
empty list when configuration was missing. -/
theorem main_aborts_early_and_always_cleans_up (w : MainWorld) :
    (main w).cleanupRun = true
    ∧ (∃ n, (main w).steps = pipelineSteps.take n)
    ∧ ((main w).success = true ↔ (main w).steps = pipelineSteps)
    ∧ (∀ u tmp, get_repo_url_from_env w.env = some u → u ≠ "" →
        w.mkdtemp = Except.ok tmp → (main w).cleanupPaths = [tmp])
    ∧ (get_repo_url_from_env w.env = none → (main w).cleanupPaths = []) := by
  unfold main mainBody
  repeat' split
  all_goals
    refine ⟨rfl, ?_, by simp [pipelineSteps], fun u tmp h1 h2 h3 => ?_, fun h0 => ?_⟩ <;>
    first
      | exact ⟨1, rfl⟩
      | exact ⟨2, rfl⟩
      | exact ⟨3, rfl⟩
      | exact ⟨4, rfl⟩
      | exact ⟨5, rfl⟩
      | exact ⟨6, rfl⟩
      | exact ⟨7, rfl⟩
      | exact ⟨8, rfl⟩
      | simp_all

/-- Witness for C1 at the `AmbiguousRoot` scenario of the spec: the
extracted tree has zero top-level directories, so the run stops right
after root resolution — before provisioning — yet cleanup still gets
the work area. -/
def ambiguousRootWorld : MainWorld :=
  { env := some "https://example.com/repo.zip"
    mkdtemp := Except.ok "/tmp/codex_lib_deploy_x"
    get := fun _ _ => Except.ok { status := 200, chunks := [[80, 75]] }
    writeOk := true
    extractRaises := false
    extractListing := some []
    rootChildren := some []
    venvProc := Except.ok { returncode := 0, stdout := "", stderr := "" }
    pipProc := Except.ok { returncode := 0, stdout := "", stderr := "" }
    demo := { writeRaises := false, proc := Except.ok { returncode := 0, stdout := "", stderr := "" } } }

/-- Witness for C1: cleanup runs on the work area in the
zero-top-level-directories run, and that run is not a success. -/
theorem main_ambiguous_root_run_cleans_up :
    (main ambiguousRootWorld).cleanupRun = true
    ∧ (main ambiguousRootWorld).cleanupPaths = ["/tmp/codex_lib_deploy_x"]
    ∧ (main ambiguousRootWorld).steps
        = [Step.config, Step.fetch, Step.extract, Step.findRoot]
    ∧ (main ambiguousRootWorld).success = false := by
  have h := main_aborts_early_and_always_cleans_up ambiguousRootWorld
  refine ⟨h.1, h.2.2.2.1 "https://example.com/repo.zip" "/tmp/codex_lib_deploy_x"
    (by decide) (by decide) rfl, by decide, by decide⟩

/-- Claim C9: `run_demonstration` leaves no script file behind and lets
no exception escape, in every demo world; and the final success log of
the pipeline does not depend on the demonstration outcome at all. -/
theorem run_demonstration_deletes_script_and_never_raises
    (w : DemoWorld) (mw : MainWorld) (d : DemoWorld) :
    (run_demonstration w).scriptExists = false
    ∧ (run_demonstration w).raised = false
    ∧ (main { mw with demo := d }).success = (main mw).success := by
  refine ⟨?_, rfl, ?_⟩
  · rcases w with ⟨wr, proc⟩
    cases wr <;> cases proc <;> rfl
  · rcases mw with ⟨env, mk, g, wo, er, el, rc, vp, pp, dd⟩
    rfl

end DeployLibrary
